import Mathlib

/-!
# Verification of the cv-converter-agent conversational backend

A shallow embedding, in Lean 4, of the pure logic of the repository
`loresagaashi/cv-converter-agent`:

* `backend/apps/llm/services.py` — the recruiter conversation driver
  (`generate_recruiter_next_question`), the answer classifier
  (`classify_recruiter_answer`) and the structured-CV normalizer
  (`generate_structured_cv`, `_simple_structured_cv_from_text`);
* `backend/apps/interview/views.py` — the paper aggregation endpoint
  (`ConversationSessionGeneratePaperView.post`), the turn-order assignment
  of `ConversationTurnView.post`, and the recommendation truncation of
  `_build_structured_data_from_conversation`;
* `backend/apps/cv/pdf_renderer.py` — the recommendation truncation of the
  PDF projection.

Python strings are modelled as `List Char` (`Str`).  Network calls
(`requests.post` to OpenAI / Ollama) are modelled as explicit oracle
parameters: the caller supplies either a failure (exception) or the parsed
response object, and all post-processing of that response is translated
from the source.  `.lower()` is modelled with `Char.toLower` (exact on
ASCII, where all fixed phrase tables live), `.strip()` with a whitespace
trim on both ends.
-/

namespace CvAgent

/-- Python strings, modelled as lists of characters. -/
abbrev Str := List Char

/-- Python `str.lower()` (exact for ASCII input). -/
def lowerStr (s : Str) : Str := s.map Char.toLower

/-- Python `str.strip()`: drop whitespace from both ends. -/
def trimStr (s : Str) : Str :=
  ((s.dropWhile Char.isWhitespace).reverse.dropWhile Char.isWhitespace).reverse

/-- Python `pat in s` (substring containment). -/
def containsSub (s pat : Str) : Bool :=
  if pat.isPrefixOf s then true
  else
    match s with
    | [] => false
    | _ :: rest => containsSub rest pat

/-- Python `s.count(c)` for a single character. -/
def countChar (s : Str) (c : Char) : Nat := (s.filter (fun x => x == c)).length

/-- Association-list lookup (first match), for Python dict `.get`. -/
def alGet {α : Type} (d : List (Str × α)) (k : Str) : Option α :=
  match d with
  | [] => none
  | (k', v) :: rest => if k' == k then some v else alGet rest k

/-- Replace the first entry with the given key (Python `d[k] = v` on an
existing key). -/
def alSet {α : Type} (d : List (Str × α)) (k : Str) (v : α) : List (Str × α) :=
  match d with
  | [] => []
  | (k', v') :: rest => if k' == k then (k', v) :: rest else (k', v') :: alSet rest k v

/-!
## The recruiter conversation driver

`generate_recruiter_next_question` (backend/apps/llm/services.py,
lines 488–947).  The OpenAI call is an oracle parameter `LlmOutcome`:
`.fail` models any exception raised by `requests.post` /
`raise_for_status` / missing `choices` (lines 831–848), `.ok` carries the
fields of the parsed JSON reply (a failed `json.loads` at line 853 yields
`parsed = {}`, i.e. `.ok [] none false false`).
-/

/-- The fixed completion-signal phrase table (services.py lines 542–546,
repeated verbatim at 690–694, 714–718, 751–755). -/
def completionSignals : List Str :=
  ["no", "nope", "nothing else", "that's all", "that is all",
   "that's enough", "that is enough", "no more", "nothing more",
   "that's it", "that is it", "no additional", "no other"].map String.data

/-- The follow-up question phrase table (services.py lines 547–550,
repeated at 742–745). -/
def followupQuestions : List Str :=
  ["do you have anything else", "anything else", "is there anything else",
   "anything more", "anything more to add", "is there anything more"].map String.data

/-- The fixed section order of the conversation flow (services.py
lines 578–588, repeated at 619–629, 662–672, 763–773, 865–875). -/
def sectionOrder : List Str :=
  ["introduction", "core_skills", "soft_skills", "languages", "education",
   "trainings_certifications", "technical_competencies", "project_experience",
   "additional_info"].map String.data

def introductionS : Str := "introduction".data
def coreSkillsS : Str := "core_skills".data
def softSkillsS : Str := "soft_skills".data
def languagesS : Str := "languages".data
def educationS : Str := "education".data
def trainingsCertificationsS : Str := "trainings_certifications".data
def technicalCompetenciesS : Str := "technical_competencies".data
def projectExperienceS : Str := "project_experience".data
def addInfoS : Str := "additional_info".data
def recommendationsS : Str := "recommendations".data

/-- The exact/prefix completion test used at services.py lines 565–571,
607–612, 649–655, 697, 719: the trimmed, lower-cased answer equals a
signal or starts with a signal followed by a space. -/
def isCompletionSignalExact (ans : Str) : Bool :=
  let a := trimStr (lowerStr ans)
  completionSignals.any (fun sg => sg == a || (sg ++ [' ']).isPrefixOf a || a == sg)

/-- The substring completion test used at services.py line 757
(`any(signal in answer_lower for signal in completion_signals)`): note
that, unlike `isCompletionSignalExact`, this fires on any answer merely
containing a signal phrase anywhere. -/
def isCompletionSignalSub (ans : Str) : Bool :=
  let a := lowerStr ans
  completionSignals.any (fun sg => containsSub a sg)

/-- `section_order.index(section)` + `section_order[idx + 1]` under the
`try/except ValueError` pattern of services.py lines 589–600 (also
630–642, 673–684, 774–794): `none` when the section is absent or already
last, in which case the Python code falls through. -/
def advanceSection (sec : Str) : Option Str :=
  match sectionOrder.indexOf? sec with
  | some idx => if idx < sectionOrder.length - 1 then sectionOrder[idx + 1]? else none
  | none => none

/-- The canned next-section question (services.py lines 594, 636, 678,
788: f-string with `next_section.replace('_', ' ')`). -/
def basedOnQuestion (sec : Str) : Str :=
  ("Based on your assessment, what is your experience with the candidate regarding their ").data
    ++ sec.map (fun c => if c == '_' then ' ' else c) ++ ("?").data

def addInfoQuestion : Str :=
  ("Is there any additional information from the interview that's not in the CV or competence paper?").data

def gotItQuestion : Str := ("Got it. Do you have anything else?").data

/-- The per-section fallback questions (services.py lines 920–929). -/
def fallbackBySection : List (Str × Str) :=
  [(coreSkillsS, ("Let’s talk about the candidate’s core skills. Which core skill from the competence paper would you like to confirm next?").data),
   (softSkillsS, ("Now let’s move to soft skills. Which soft skills from the competence paper should we confirm for this candidate?").data),
   (languagesS, ("Let’s talk about languages. Which languages from the competence paper should we confirm for this candidate?").data),
   (educationS, ("Now let’s move to education. Which degree or education entry from the competence paper should we confirm?").data),
   (trainingsCertificationsS, ("Let’s cover trainings and certifications. Which training or certification from the competence paper should we confirm?").data),
   (technicalCompetenciesS, ("Now let’s move to technical competencies. Which tools or technologies from the competence paper should we confirm next?").data),
   (projectExperienceS, ("Let’s discuss project experience. Which project or role from the competence paper should we confirm now?").data),
   (addInfoS, ("Do you have any additional information from the interview that's not in the CV or competence paper?").data)]

/-- One entry of the `history` argument (a `{"role": ..., "content": ...}`
dict). -/
structure HistItem where
  role : Str
  content : Str
deriving Repr, DecidableEq

/-- The history normalization loop of services.py lines 524–536: the last
normalized content with the given role ("recruiter" or "assistant"),
`[]` when none. -/
def lastWithRole (history : List HistItem) (r : Str) : Str :=
  history.foldl
    (fun acc h =>
      if lowerStr (trimStr h.role) == r && !(trimStr h.content).isEmpty then
        trimStr h.content
      else acc)
    []

def recruiterRole : Str := "recruiter".data
def assistantRole : Str := "assistant".data

/-- The parsed OpenAI reply for the conversation driver, or a failure of
the request itself. A reply that fails `json.loads` is `.ok [] none false
false` (`parsed = {}`, services.py line 853). -/
inductive LlmOutcome where
  | fail
  | ok (question : Str) (sec? : Option Str) (completeSection : Bool) (done : Bool)
deriving Repr, DecidableEq

/-- The result dict of `generate_recruiter_next_question`. -/
structure RecruiterResult where
  question : Str
  sec : Str
  completeSection : Bool
  done : Bool
deriving Repr, DecidableEq

/-- The `try: idx = section_order.index(section) ... return {...}` pattern
guarded by a condition (services.py lines 564–600, 604–642, 648–684). -/
def tryAdvance (sec : Str) (cond : Bool) : Option RecruiterResult :=
  if cond then
    (advanceSection sec).map (fun nxt => ⟨basedOnQuestion nxt, nxt, false, false⟩)
  else none

/-- The `is_additional_info_followup` test of services.py lines 554–557. -/
def isAddInfoFollowup (laq sec : Str) : Bool :=
  (containsSub (lowerStr laq) (("additional information").data)
    || containsSub (lowerStr laq) (("additional info").data)) && sec != addInfoS

/-- The `is_followup_question` test of services.py lines 559–560 (also
742–746). -/
def isFollowupQuestion (laq : Str) : Bool :=
  followupQuestions.any (fun fq => containsSub (lowerStr laq) fq)

/-- Services.py lines 539–684: the three early completion-signal branches
(additional-info follow-up, plain follow-up, initial question). `none`
means the Python code falls through. -/
def earlyCompletionPart (lra laq sec : Str) : Option RecruiterResult :=
  if lra.isEmpty || laq.isEmpty then none
  else
    tryAdvance sec (isAddInfoFollowup laq sec && isCompletionSignalExact lra)
      <|> tryAdvance sec
            (isFollowupQuestion laq && sec != addInfoS && !isAddInfoFollowup laq sec
              && isCompletionSignalExact lra)
      <|> tryAdvance sec
            (!isFollowupQuestion laq && sec != addInfoS && isCompletionSignalExact lra)

/-- Services.py lines 686–706: inside `additional_info`, a completion
signal terminates the flow. -/
def addInfoDonePart (lra sec : Str) : Option RecruiterResult :=
  if sec == addInfoS && !lra.isEmpty && isCompletionSignalExact lra then
    some ⟨[], addInfoS, true, true⟩
  else none

/-- Services.py lines 708–728: a completion signal after a question about
additional information terminates the flow. -/
def addInfoQuestionDonePart (lra laq : Str) : Option RecruiterResult :=
  if !laq.isEmpty && !lra.isEmpty then
    if (containsSub (lowerStr laq) (("additional information").data)
          || containsSub (lowerStr laq) (("additional_info").data))
        && isCompletionSignalExact lra then
      some ⟨[], addInfoS, true, true⟩
    else none
  else none

/-- Services.py lines 739–806: the forced pre-LLM step after an initial
(non-follow-up) question.  Note the substring test
`any(signal in answer_lower ...)` at line 757. -/
def forcedFollowupPart (lra laq sec : Str) : Option RecruiterResult :=
  if lra.isEmpty || laq.isEmpty then none
  else
    if !isFollowupQuestion laq then
      if isCompletionSignalSub lra then
        match advanceSection sec with
        | some nxt =>
            if nxt == addInfoS then some ⟨addInfoQuestion, nxt, false, false⟩
            else some ⟨basedOnQuestion nxt, nxt, false, false⟩
        | none => none
      else some ⟨gotItQuestion, sec, false, false⟩
    else none

/-- `fallback_by_section.get(next_section) or fallback_by_section.get(section, "")`
(services.py line 931; every stored value is non-empty, so Python's `or`
only reacts to a missing first key). -/
def fallbackQuestionFor (nextSection sec1 : Str) : Str :=
  (match alGet fallbackBySection nextSection with
   | some v => some v
   | none => alGet fallbackBySection sec1).getD []

/-- Services.py lines 919–947: synthesize a fallback question when the
model returned none, then assemble the result
(`"section": next_section or section`). -/
def finishQuestion (question nextSection : Str) (cs done : Bool) (sec1 : Str) :
    RecruiterResult :=
  if question.isEmpty && !done then
    if !(fallbackQuestionFor nextSection sec1).isEmpty then
      ⟨fallbackQuestionFor nextSection sec1,
       (if nextSection.isEmpty then sec1 else nextSection), cs, done⟩
    else
      ⟨fallbackQuestionFor nextSection sec1,
       (if nextSection.isEmpty then sec1 else nextSection), true, true⟩
  else ⟨question, (if nextSection.isEmpty then sec1 else nextSection), cs, done⟩

/-- `str(parsed.get("section") or section).strip()` (services.py
line 856): the model's proposed section, with the current one substituted
for a missing or empty field. -/
def proposedSection (sec : Str) (sec? : Option Str) : Str :=
  trimStr (match sec? with
           | some s => if s.isEmpty then sec else s
           | none => sec)

/-- The `complete_section` advance of services.py lines 882–896: replace
the model's proposed section with the successor in the fixed order, and
synthesize the additional-info question when the model gave none. -/
def csAdvance (sec1 question0 nextSection0 : Str) : Str × Str :=
  match sectionOrder.indexOf? sec1 with
  | some idx =>
      if idx < sectionOrder.length - 1 then
        ((if (sectionOrder[idx + 1]?).getD [] == addInfoS && question0.isEmpty then
            addInfoQuestion
          else question0),
         (sectionOrder[idx + 1]?).getD [])
      else ((if question0.isEmpty then addInfoQuestion else question0), addInfoS)
  | none => (question0, nextSection0)

/-- Services.py lines 808–947: the OpenAI call and the server-side
guardrails applied to its reply. -/
def llmPostPart (sec : Str) (out : LlmOutcome) : RecruiterResult :=
  match out with
  | .fail => ⟨[], sec, true, true⟩
  | .ok q0 sec? cs0 done0 =>
      let question0 := trimStr q0
      let nextSection0 := proposedSection sec sec?
      let sec1 := if sectionOrder.contains sec then sec else coreSkillsS
      let qns : Str × Str :=
        if cs0 then csAdvance sec1 question0 nextSection0
        else (question0, nextSection0)
      let nextSection2 :=
        if sec1 == projectExperienceS && cs0 && qns.2 != addInfoS then addInfoS
        else qns.2
      if nextSection2 != addInfoS && sec1 != addInfoS then
        finishQuestion qns.1 nextSection2 cs0 false sec1
      else if sec1 == addInfoS && done0 then ⟨[], addInfoS, true, true⟩
      else finishQuestion qns.1 nextSection2 cs0 done0 sec1

/-- `generate_recruiter_next_question` (services.py lines 488–947).
`hasApiKey` models `OPENAI_API_KEY` being configured; `llm` is the OpenAI
oracle.  `cv_text` and `competence_text` only feed the prompt and do not
influence the control flow, so they are omitted. -/
def generateRecruiterNextQuestion (hasApiKey : Bool) (history : List HistItem)
    (sec : Str) (llm : LlmOutcome) : RecruiterResult :=
  if !hasApiKey then ⟨[], sec, true, true⟩
  else
    match earlyCompletionPart (lastWithRole history recruiterRole)
        (lastWithRole history assistantRole) sec with
    | some r => r
    | none =>
      match addInfoDonePart (lastWithRole history recruiterRole) sec with
      | some r => r
      | none =>
        match addInfoQuestionDonePart (lastWithRole history recruiterRole)
            (lastWithRole history assistantRole) with
        | some r => r
        | none =>
          match forcedFollowupPart (lastWithRole history recruiterRole)
              (lastWithRole history assistantRole) sec with
          | some r => r
          | none => llmPostPart sec llm

/-!
## The answer classifier

`classify_recruiter_answer` (backend/apps/llm/services.py, lines 197–485).
The OpenAI call is again an oracle: `none` models any exception of the
request/parse block (lines 324–349), `some p` the parsed JSON reply.
-/

/-- A JSON value, as far as the Python code inspects one. -/
inductive JVal where
  | str (s : Str)
  | num (n : Int)
  | bool (b : Bool)
  | null
  | list (l : List JVal)
  | dict (d : List (Str × JVal))

def confirmedS : Str := "confirmed".data
def partiallyConfirmedS : Str := "partially_confirmed".data
def notConfirmedS : Str := "not_confirmed".data
def newSkillS : Str := "new_skill".data
def highS : Str := "high".data
def mediumS : Str := "medium".data
def lowS : Str := "low".data

/-- Count of regex matches of `[^\x00-\x7F]+` (services.py lines 230–231):
`re.findall` returns one match per MAXIMAL RUN of consecutive non-ASCII
characters, so this counts runs, not characters. -/
def nonAsciiRuns (s : Str) : Nat :=
  (s.foldl
    (fun acc c =>
      if 127 < c.toNat then (if acc.2 then acc else (acc.1 + 1, true))
      else (acc.1, false))
    ((0 : Nat), false)).1

/-- The language rejection test of services.py line 232:
`non_english_chars > 0 and non_english_chars > len(answer) * 0.3`.
The float product `len * 0.3` is modelled by the rational comparison
`3 * len < 10 * runs`; for every length exercised below the two agree. -/
def languageReject (answer : Str) : Bool :=
  let runs := nonAsciiRuns answer
  decide (0 < runs) && decide (3 * answer.length < 10 * runs)

/-- The rule-based classification used when OpenAI is not configured
(services.py lines 241–258) or its call failed (lines 349–365); the two
differ only in the `notes` string. -/
def heuristicClassifyStatus (answer secKey : Str) : Str :=
  let lowered := lowerStr answer
  let status0 :=
    if [("no").data, ("not really").data, ("don't think so").data,
        ("do not think so").data].any (fun x => containsSub lowered x) then
      notConfirmedS
    else if [("yes").data, ("yeah").data, ("yep").data, ("they do").data,
             ("they have").data, ("correct").data].any (fun x => containsSub lowered x) then
      confirmedS
    else partiallyConfirmedS
  if secKey == addInfoS then newSkillS else status0

/-- The result dict of `classify_recruiter_answer`. -/
structure ClassifyResult where
  status : Str
  confidenceLevel : Str
  extractedSkills : List Str
  notes : Str
deriving Repr, DecidableEq

/-- The parsed OpenAI classification reply: raw field values as the Python
`parsed.get(...)` composition sees them (`status` stands for
`str(parsed.get("status") or "")`, and so on; `extracted = none` models a
missing, falsy, or non-list `extracted_skills`). -/
structure ParsedClassify where
  status : Str
  confidence : Str
  extracted : Option (List JVal)
  notes : Str

/-- The extracted-skills filter phrase table of services.py lines 386–391. -/
def questionIndicatorsClassify : List Str :=
  ["based on your assessment", "what is your experience", "what can you tell me",
   "do you have anything else", "is there anything else", "anything more",
   "let's talk about", "now let's move", "which", "should we confirm",
   "got it", "alright", "perfect", "i see"].map String.data

/-- The extracted-skills cleaning loop of services.py lines 384–404. -/
def cleanSkills (items : List JVal) : List Str :=
  items.filterMap
    (fun it =>
      match it with
      | .str s =>
          let sc := trimStr s
          if sc.isEmpty then none
          else
            let sl := lowerStr sc
            let isQ := questionIndicatorsClassify.any (fun ind => containsSub sl ind)
              || sc.getLast? == some '?' || decide (sc.length < 2)
            if isQ then none else some sc
      | _ => none)

/-- The soft-skill keyword table of services.py lines 435–444 (dict
insertion order preserved). -/
def softSkillKeywords : List (Str × List Str) :=
  [(("Communication").data, ["communicative", "communication", "communicates", "communicating", "good communication"].map String.data),
   (("Teamwork").data, ["team", "teamwork", "works well in a team", "team player", "collaborative", "collaboration"].map String.data),
   (("Leadership").data, ["leader", "leadership", "leads", "leading"].map String.data),
   (("Problem Solving").data, ["problem solving", "problem-solving", "solves problems", "analytical"].map String.data),
   (("Adaptability").data, ["adaptable", "adaptability", "flexible", "flexibility"].map String.data),
   (("Time Management").data, ["time management", "manages time", "punctual", "punctuality"].map String.data),
   (("Creativity").data, ["creative", "creativity", "innovative", "innovation"].map String.data),
   (("Work Ethic").data, ["work ethic", "hardworking", "dedicated", "dedication", "reliable"].map String.data)]

/-- Python `str.replace(pat, "")`: erase every (non-overlapping,
left-to-right) occurrence of `pat`. -/
def eraseSub (s pat : Str) : Str :=
  if h : pat.isEmpty then s
  else
    match s with
    | [] => []
    | c :: rest =>
        if pat.isPrefixOf (c :: rest) then eraseSub ((c :: rest).drop pat.length) pat
        else c :: eraseSub rest pat
termination_by s.length
decreasing_by
  · have hp : 0 < pat.length := by
      cases pat with
      | nil => simp at h
      | cons a t => simp
    simp only [List.length_drop, List.length_cons]
    omega
  · simp

/-- The common-phrase removal loop of services.py lines 458–461
(each step is `replace(phrase, "")` then `strip()`). -/
def removeCommonPhrases (answer : Str) : Str :=
  [("the candidate").data, ("they are").data, ("they're").data, ("the person").data,
   ("he is").data, ("she is").data, ("he's").data, ("she's").data].foldl
    (fun acc ph => trimStr (eraseSub acc ph)) answer

/-- Services.py line 464: capitalize the first character. -/
def capitalizeFirst (s : Str) : Str :=
  if 1 < s.length then
    match s with
    | c :: rest => c.toUpper :: rest
    | [] => []
  else s.map Char.toUpper

/-- The post-processing of a successful OpenAI classification reply
(services.py lines 367–485). -/
def classifyLlmPost (answer secKey : Str) (p : ParsedClassify) : ClassifyResult :=
  let status0 := let s := trimStr p.status; if s.isEmpty then partiallyConfirmedS else s
  let status1 :=
    if [confirmedS, partiallyConfirmedS, notConfirmedS, newSkillS].contains status0 then
      status0
    else partiallyConfirmedS
  let conf0 := lowerStr (trimStr p.confidence)
  let conf1 := if [highS, mediumS, lowS].contains conf0 then conf0 else mediumS
  let conf2 := if secKey == softSkillsS && conf1 == mediumS then highS else conf1
  let cleaned := cleanSkills (p.extracted.getD [])
  let notes := trimStr p.notes
  let pair1 : List Str × Str :=
    if secKey == addInfoS && !cleaned.isEmpty && status1 != notConfirmedS then
      let filtered := cleaned.filter (fun sk => !(completionSignals.contains (trimStr (lowerStr sk))))
      if !filtered.isEmpty then (filtered, newSkillS) else ([], notConfirmedS)
    else (cleaned, status1)
  let cleaned2 :=
    if secKey == softSkillsS && pair1.1.isEmpty
        && (pair1.2 == confirmedS || pair1.2 == partiallyConfirmedS) then
      let answerLower := lowerStr answer
      let found := softSkillKeywords.filterMap
        (fun kv => if kv.2.any (fun kw => containsSub answerLower kw) then some kv.1 else none)
      if !found.isEmpty then found
      else
        let ca := removeCommonPhrases (trimStr answer)
        if !ca.isEmpty then [capitalizeFirst ca] else pair1.1
    else pair1.1
  let conf3 :=
    if pair1.2 == confirmedS || pair1.2 == partiallyConfirmedS || pair1.2 == newSkillS then
      let cA := if conf2 == lowS then mediumS else conf2
      if secKey == softSkillsS && !cleaned2.isEmpty && (cA == mediumS || cA == lowS) then highS
      else cA
    else conf2
  ⟨pair1.2, conf3, cleaned2, notes⟩

/-- `classify_recruiter_answer` (services.py lines 197–485).  `hasApiKey`
models `OPENAI_API_KEY`; `llm` is the OpenAI oracle (unused when the key
is absent or the answer is rejected early). -/
def classifyRecruiterAnswer (questionText answerText sec : Str) (hasApiKey : Bool)
    (llm : Option ParsedClassify) : ClassifyResult :=
  let answer := trimStr answerText
  let secKey := lowerStr (trimStr sec)
  if answer.isEmpty then
    ⟨notConfirmedS, lowS, [], ("Empty or missing answer.").data⟩
  else if languageReject answer then
    ⟨notConfirmedS, lowS, [],
     ("Answer appears to be in a different language or unclear.").data⟩
  else if !hasApiKey then
    ⟨heuristicClassifyStatus answer secKey, mediumS, [],
     ("Rule-based classification (no OpenAI API).").data⟩
  else
    match llm with
    | none =>
        ⟨heuristicClassifyStatus answer secKey, mediumS, [],
         ("Heuristic classification after OpenAI failure.").data⟩
    | some p => classifyLlmPost answer secKey p

/-!
## The structured-CV normalizer

`generate_structured_cv` and `_simple_structured_cv_from_text`
(backend/apps/llm/services.py, lines 1293–1459).  The Ollama call is an
oracle: `none` models an `_ollama` exception (fall back to the heuristic
parser); `some data` the dict produced by `_extract_first_json_object`
(which returns `{}` — the empty dict — on any parse failure, so the
`isinstance(data, dict)` guard of line 1394 never fires and is not
representable here).  Result dicts are modelled as ordered key/value
lists so that the presence and order of fields is part of the statement.
-/

def profileS : Str := "profile".data
def skillsS : Str := "skills".data
def skillsGroupedS : Str := "skills_grouped".data
def workExperienceS : Str := "work_experience".data
def projectsS : Str := "projects".data
def coursesS : Str := "courses".data
def certificationsS : Str := "certifications".data

/-- Python truthiness of a JSON value. -/
def pyTruthy : JVal → Bool
  | .str s => !s.isEmpty
  | .num n => n != 0
  | .bool b => b
  | .null => false
  | .list l => !l.isEmpty
  | .dict d => !d.isEmpty

/-- Python `str(...)` of a JSON value, as used for the `profile` field
(line 1409).  Exact for strings, booleans, `None` and integers; the
`repr` of containers is abstracted to a marker (no claim below depends on
it, since realistic `profile` values are strings and the `or ""` guard has
already removed falsy values). -/
def pyStrOf : JVal → Str
  | .str s => s
  | .bool true => ("True").data
  | .bool false => ("False").data
  | .null => ("None").data
  | .num n => (toString n).data
  | .list _ => ("<list>").data
  | .dict _ => ("<dict>").data

/-- `data.get(k) or []` followed by the `isinstance(..., list)` guard
(lines 1410–1431): a missing, falsy or non-list value becomes `[]`. -/
def jGetList (d : List (Str × JVal)) (k : Str) : List JVal :=
  match alGet d k with
  | some (.list l) => l
  | _ => []

/-- Python `str.splitlines()` (services.py line 1301), for `\n`-separated
text: no trailing empty piece for a terminal newline. -/
def splitLines (s : Str) : List Str :=
  if s.isEmpty then []
  else
    let parts := s.splitOn '\n'
    if s.getLast? == some '\n' then parts.dropLast else parts

/-- Replace `;`, `/`, `|` by `,` (the separator normalization of services.py
lines 1330–1334). -/
def normalizeSeps (l : Str) : Str :=
  l.map (fun c => if c == ';' || c == '/' || c == '|' then ',' else c)

/-- The token dedup loop of services.py lines 1336–1345: drop tokens whose
trim is shorter than 2 characters, then keep the first occurrence of each
lower-cased key about (the kept token is the trimmed one). -/
def dedupTokens : List Str → List Str → List Str
  | [], _ => []
  | tok :: rest, seen =>
      if (trimStr tok).length < 2 then dedupTokens rest seen
      else if seen.contains (lowerStr (trimStr tok)) then dedupTokens rest seen
      else trimStr tok :: dedupTokens rest (lowerStr (trimStr tok) :: seen)

/-- The result-dict shape shared by the three returns of
`generate_structured_cv` / `_simple_structured_cv_from_text`
(services.py lines 1350–1360, 1371–1382 and 1449–1459 all build this
same key order). -/
def mkStructuredCv (profile : Str) (skills : List Str)
    (languages workExperience education projects courses certifications : List JVal) :
    List (Str × JVal) :=
  [(profileS, .str profile), (languagesS, .list languages),
   (skillsS, .list (skills.map JVal.str)), (skillsGroupedS, .dict []),
   (workExperienceS, .list workExperience), (educationS, .list education),
   (projectsS, .list projects), (coursesS, .list courses),
   (certificationsS, .list certifications)]

/-- The fully-empty, correctly-shaped structure (services.py
lines 1371–1382, also 1395–1406). -/
def emptyStructuredCv : List (Str × JVal) :=
  mkStructuredCv [] [] [] [] [] [] [] []

/-- `_simple_structured_cv_from_text` (services.py lines 1293–1360): the
heuristic fallback parser. -/
def simpleStructuredCvFromText (cvText : Str) : List (Str × JVal) :=
  let lines := (splitLines cvText).map trimStr
  let nonEmpty := lines.filter (fun l => !l.isEmpty)
  let profileSource := List.intercalate ((" ").data) (nonEmpty.take 3)
  let profile := trimStr (profileSource.take 600)
  let idxSkills := lines.findIdx? (fun l => containsSub (lowerStr l) (("skills").data))
  let skillLines :=
    match idxSkills with
    | some i => (lines.drop (i + 1)).takeWhile (fun l => !(trimStr l).isEmpty)
    | none => lines.filter (fun l => decide (3 ≤ countChar l ','))
  let rawTokens := (skillLines.map (fun l => (normalizeSeps l).splitOn ',')).flatten
  mkStructuredCv profile (dedupTokens rawTokens []) [] [] [] [] [] []

/-- `str(data.get("profile") or "").strip()` (services.py line 1409). -/
def structuredProfile (data : List (Str × JVal)) : Str :=
  trimStr (match alGet data profileS with
           | some v => if pyTruthy v then pyStrOf v else []
           | none => [])

/-- The skills normalization of services.py lines 1434–1439: keep only
strings, trimmed, dropping empties. -/
def normalizedSkillsOf (data : List (Str × JVal)) : List Str :=
  (jGetList data skillsS).filterMap
    (fun v =>
      match v with
      | .str s => if (trimStr s).isEmpty then none else some (trimStr s)
      | _ => none)

/-- `generate_structured_cv` (services.py lines 1363–1459).  `llm = none`
models an `_ollama` exception; `llm = some data` the dict extracted from
the raw reply (`some []` when the reply held no parsable JSON object). -/
def generateStructuredCv (cvText : Str) (llm : Option (List (Str × JVal))) :
    List (Str × JVal) :=
  if cvText.isEmpty || (trimStr cvText).isEmpty then emptyStructuredCv
  else
    match llm with
    | none => simpleStructuredCvFromText cvText
    | some data =>
        if (structuredProfile data).isEmpty && (normalizedSkillsOf data).isEmpty then
          simpleStructuredCvFromText cvText
        else
          mkStructuredCv (structuredProfile data) (normalizedSkillsOf data)
            (jGetList data languagesS) (jGetList data workExperienceS)
            (jGetList data educationS) (jGetList data projectsS)
            (jGetList data coursesS) (jGetList data certificationsS)

/-- The skills stored in a result dict, as plain strings (an inspection
helper for the statements below, not part of the source). -/
def skillStringsOf (out : List (Str × JVal)) : List Str :=
  match alGet out skillsS with
  | some (.list l) =>
      l.filterMap (fun v => match v with | .str s => some s | _ => none)
  | _ => []

/-- The profile stored in a result dict (inspection helper). -/
def profileStringOf (out : List (Str × JVal)) : Str :=
  match alGet out profileS with
  | some (.str s) => s
  | _ => []

/-!
## Recommendation truncation

The sentence-boundary truncation appears twice: in
`ConversationSessionGeneratePaperView._build_structured_data_from_conversation`
(backend/apps/interview/views.py, lines 654–668, limit 550, hard cut
`[:547] + "..."`) and in `render_structured_cv_to_pdf`
(backend/apps/cv/pdf_renderer.py, lines 351–368, limit 500, hard cut
`[:497] + "..."`).
-/

def sentencePunct (c : Char) : Bool := c == '.' || c == '!' || c == '?'

/-- `re.split(r'(?<=[.!?])\s+', text)`: split at each maximal whitespace
run whose first character is preceded by `.`, `!` or `?` (the separator is
consumed).  `acc` holds the reversed current piece; `inSep` is true while
the scanner is inside a separator whitespace run. -/
def splitSentencesAux : Str → Str → Bool → List Str
  | [], _, true => [[]]
  | [], acc, false => [acc.reverse]
  | c :: rest, acc, true =>
      if c.isWhitespace then splitSentencesAux rest acc true
      else splitSentencesAux rest [c] false
  | c :: rest, acc, false =>
      if c.isWhitespace && (match acc with | p :: _ => sentencePunct p | [] => false) then
        acc.reverse :: splitSentencesAux rest [] true
      else splitSentencesAux rest (c :: acc) false

def splitSentences (s : Str) : List Str := splitSentencesAux s [] false

/-- The greedy sentence-accumulation loop (views.py lines 660–664,
pdf_renderer.py lines 358–362): append sentences (plus a trailing space)
while the accumulated length stays within the limit, stop at the first
sentence that does not fit. -/
def truncLoop (limit : Nat) : List Str → Str → Str
  | [], acc => acc
  | s :: rest, acc =>
      if acc.length + s.length ≤ limit then truncLoop limit rest (acc ++ s ++ [' '])
      else acc

/-- The common truncation shape: views.py lines 655–668 with
`limit = 550, cut = 547`; pdf_renderer.py lines 353–366 with
`limit = 500, cut = 497`. -/
def truncateRecommendationWith (limit cut : Nat) (r : Str) : Str :=
  if limit < r.length then
    let r1 := trimStr (truncLoop limit (splitSentences r) [])
    if limit < r1.length then r1.take cut ++ ("...").data else r1
  else r

/-- The recommendation truncation of the paper aggregator (views.py
lines 654–668). -/
def truncateRecommendationPaper (r : Str) : Str := truncateRecommendationWith 550 547 r

/-- The recommendation truncation of the PDF projection (pdf_renderer.py
lines 351–368). -/
def truncateRecommendationPdf (r : Str) : Str := truncateRecommendationWith 500 497 r

/-!
## The paper aggregation endpoint

`ConversationSessionGeneratePaperView.post`
(backend/apps/interview/views.py, lines 685–966).  The database rows are
modelled as a `PaperState`: the turn log (already in `question_order`),
the stored paper content, the session status and whether `completed_at`
is set (its clock value is irrelevant to the claims).  The pure regex
helper `_extract_item_from_question` (lines 469–519) is a deterministic
function of the question text and section; it is passed in as an explicit
parameter `ef`, and every theorem below holds for all such functions.
-/

/-- The stored `ConversationResponse` fields read by the aggregator
(`status`, `answer_text`, `extracted_skills`; `confidence_level` and
`notes` are stored but never read back here). -/
structure TurnResponse where
  answerText : Str
  status : Str
  extractedSkills : List Str
deriving Repr, DecidableEq

/-- A stored `ConversationQuestion` with its optional response, in
`question_order` position. -/
structure ConvTurn where
  sec : Str
  questionText : Str
  topic : Str
  response : Option TurnResponse
deriving Repr, DecidableEq

/-- The per-session persistent state touched by the endpoint. -/
structure PaperState where
  turns : List ConvTurn
  paper : Option Str
  sessionStatus : Str
  completedAtSet : Bool
deriving Repr, DecidableEq

def inProgressS : Str := "in_progress".data
def completedS : Str := "completed".data

/-- `SECTION_LABELS` (views.py lines 458–467, dict insertion order). -/
def sectionLabels : List (Str × Str) :=
  [(coreSkillsS, ("Core Skills").data),
   (softSkillsS, ("Soft Skills").data),
   (languagesS, ("Languages").data),
   (educationS, ("Education").data),
   (trainingsCertificationsS, ("Trainings & Certifications").data),
   (technicalCompetenciesS, ("Technical Competencies").data),
   (projectExperienceS, ("Project Experience").data),
   (recommendationsS, ("Recommendations").data)]

/-- The question-indicator table of views.py lines 756–760 (repeated at
781–785). -/
def questionIndicatorsPaper : List Str :=
  ["based on your assessment", "what is your experience", "what can you tell me",
   "do you have anything else", "is there anything else", "anything more",
   "let's talk about", "now let's move", "which", "should we confirm"].map String.data

/-- The shorter indicator table of views.py lines 812–815. -/
def questionIndicatorsShort : List Str :=
  ["based on your assessment", "what is your experience", "what can you tell me",
   "do you have anything else", "is there anything else", "anything more"].map String.data

/-- The extracted-skills filter of views.py lines 755–769. -/
def filterExtractedItems (items : List Str) : List Str :=
  items.filterMap
    (fun item =>
      let itemStr := trimStr item
      if itemStr.isEmpty then none
      else
        let il := lowerStr itemStr
        let isQ := questionIndicatorsPaper.any (fun ind => containsSub il ind)
          || itemStr.getLast? == some '?'
        if isQ then none else some itemStr)

/-- The question-prefix stripping of views.py lines 805–810 (first
matching prefix wins, then cut at the first `.` and `?` and strip). -/
def stripQuestionPrefix (questionText : Str) : Str :=
  let prefixes :=
    [("The competence paper lists ").data, ("Has the candidate worked with ").data,
     ("The competence paper mentions ").data, ("Is it correct that ").data]
  match prefixes.find? (fun p => p.isPrefixOf questionText) with
  | some p =>
      trimStr (((questionText.drop p.length).takeWhile (fun c => c != '.')).takeWhile
        (fun c => c != '?'))
  | none => questionText

/-- The item-extraction fallback chain of views.py lines 772–819 (entered
when the filtered `extracted_skills` list is empty). -/
def fallbackItemsFor (ef : Str → Str → Str) (t : ConvTurn) (resp : TurnResponse)
    (questionText answerText : Str) : List Str :=
  let itemExtracted := ef questionText t.sec
  if !itemExtracted.isEmpty then [itemExtracted]
  else if !(trimStr t.topic).isEmpty then
    let topic := trimStr t.topic
    let tl := lowerStr topic
    let isQ := questionIndicatorsPaper.any (fun ind => containsSub tl ind)
      || topic.getLast? == some '?'
    if !isQ then [topic] else []
  else if [confirmedS, partiallyConfirmedS, newSkillS].contains resp.status
      && !answerText.isEmpty then
    let al := lowerStr answerText
    let isCompletion :=
      [("no").data, ("nope").data, ("nothing else").data, ("that's all").data,
       ("that is all").data].any (fun sg => containsSub al sg)
    let isQ := (trimStr answerText).getLast? == some '?'
      || containsSub al (("based on your assessment").data)
    -- views.py line 801 guards with `section_key == "soft_skills" or not
    -- items_to_store`; `items_to_store` is always empty on this branch, so
    -- the guard is vacuously true.
    if !isCompletion && !isQ then [trimStr answerText] else []
  else
    let cleaned := stripQuestionPrefix questionText
    let cl := lowerStr cleaned
    let isQ := questionIndicatorsShort.any (fun ind => containsSub cl ind)
      || cleaned.getLast? == some '?'
    if !cleaned.isEmpty && decide (cleaned.length < 100) && !isQ then [cleaned] else []

/-- The case-insensitive add-with-dedup loop of views.py lines 823–846
(`seen` starts from the lower-cased existing entries; new keys are the
lower-cased, trimmed items; stored items are kept verbatim). -/
def addWithDedupGo (cur seen items : List Str) : List Str :=
  match items with
  | [] => cur
  | i :: rest =>
      let il := trimStr (lowerStr i)
      if !il.isEmpty && !(seen.contains il) then
        addWithDedupGo (cur ++ [i]) (seen ++ [il]) rest
      else addWithDedupGo cur seen rest

def addWithDedup (cur items : List Str) : List Str :=
  addWithDedupGo cur (cur.map lowerStr) items

/-- The per-turn step of the aggregation loop (views.py lines 719–848),
updating `(section_items, additional_notes)`. -/
def processTurn (ef : Str → Str → Str) (acc : List (Str × List Str) × List Str)
    (t : ConvTurn) : List (Str × List Str) × List Str :=
  match t.response with
  | none => acc
  | some resp =>
      if resp.status == notConfirmedS then acc
      else if !(acc.1.any (fun kv => kv.1 == t.sec)) && t.sec != addInfoS then acc
      else
        let questionText := trimStr t.questionText
        let answerText := trimStr resp.answerText
        let items0 :=
          if !resp.extractedSkills.isEmpty then filterExtractedItems resp.extractedSkills
          else []
        let items :=
          if items0.isEmpty then fallbackItemsFor ef t resp questionText answerText
          else items0
        if !items.isEmpty then
          if acc.1.any (fun kv => kv.1 == t.sec) then
            (alSet acc.1 t.sec (addWithDedup ((alGet acc.1 t.sec).getD []) items), acc.2)
          else (acc.1, addWithDedup acc.2 items)
        else acc

/-- The aggregation loop of views.py lines 711–848: fold the ordered turn
log into `(section_items, additional_notes)`. -/
def aggregateTurns (ef : Str → Str → Str) (turns : List ConvTurn) :
    List (Str × List Str) × List Str :=
  turns.foldl (processTurn ef) (sectionLabels.map (fun kv => (kv.1, [])), [])

/-- The text rendering of views.py lines 855–917 from the aggregated
`(section_items, additional_notes)`. -/
def renderPaper (agg : List (Str × List Str) × List Str) : Str :=
  let items := fun k => (alGet agg.1 k).getD []
  let explicitRecs := items recommendationsS
  let recLines : List Str :=
    if !explicitRecs.isEmpty then
      [("Our Recommendation").data, ("------------------").data,
       List.intercalate ((" ").data) explicitRecs, []]
    else
      let allSkillLines := items coreSkillsS ++ items technicalCompetenciesS
      let allProjectLines := items projectExperienceS
      let recParts :=
        (if !allSkillLines.isEmpty then
           [("The candidate has confirmed core and technical skills such as:").data,
            ("- ").data ++ List.intercalate (("; ").data) (allSkillLines.take 5)]
         else [])
        ++ (if !allProjectLines.isEmpty then
              [("They have relevant project experience, including:").data,
               ("- ").data ++ List.intercalate (("; ").data) (allProjectLines.take 3)]
            else [])
        ++ (if !agg.2.isEmpty then
              [("Additional strengths and context from the interview:").data,
               ("- ").data ++ List.intercalate (("; ").data) (agg.2.take 5)]
            else [])
      if !recParts.isEmpty then
        [("Our Recommendation").data, ("------------------").data] ++ recParts ++ [[]]
      else []
  let sectionLines := sectionLabels.foldl
    (fun acc kv =>
      if kv.1 == recommendationsS then acc
      else
        let its := items kv.1
        if its.isEmpty then acc
        else acc ++ [kv.2, List.replicate kv.2.length '-']
          ++ its.map (fun it => ("- ").data ++ it) ++ [[]])
    []
  let noteLines :=
    if !agg.2.isEmpty then
      [("Additional Information from Interview").data,
       ("------------------------------------").data]
        ++ agg.2.map (fun n => ("- ").data ++ n) ++ [[]]
    else []
  trimStr (List.intercalate (("\n").data) (recLines ++ sectionLines ++ noteLines))

/-- The plain-text paper content built by views.py lines 711–917 from the
ordered turn log; the final `"\n".join(lines).strip()`. -/
def buildPaperContent (ef : Str → Str → Str) (turns : List ConvTurn) : Str :=
  renderPaper (aggregateTurns ef turns)

/-- The endpoint's effect on the session state (views.py lines 917–952):
an empty content yields an HTTP 400 (`none`) and no state change;
otherwise the paper is created or overwritten with the content, the
session is marked completed and `completed_at` is set. -/
def generatePaperPost (ef : Str → Str → Str) (s : PaperState) :
    PaperState × Option Str :=
  let textContent := buildPaperContent ef s.turns
  if textContent.isEmpty then (s, none)
  else
    ({ turns := s.turns, paper := some textContent, sessionStatus := completedS,
       completedAtSet := true },
     some textContent)

/-!
## Turn order assignment

`ConversationTurnView.post` (backend/apps/interview/views.py,
lines 350–356): the new `question_order` is the maximum existing order
plus one (`1` for the first turn).
-/

/-- `ConversationQuestion.objects.filter(session=...).order_by("-question_order").first()`:
the maximal existing order, `none` when the session has no turns. -/
def maxOrder (orders : List Nat) : Option Nat :=
  orders.foldl
    (fun acc x => match acc with | none => some x | some m => some (max m x))
    none

/-- `next_order = 1 if last_q is None else (last_q.question_order + 1)`
(views.py line 356). -/
def nextQuestionOrder (orders : List Nat) : Nat :=
  match maxOrder orders with
  | none => 1
  | some m => m + 1

/-- The order column of a session after `n` appends, starting from an
empty session: each append stores `nextQuestionOrder` of the existing
orders. -/
def appendOrders : Nat → List Nat
  | 0 => []
  | n + 1 => appendOrders n ++ [nextQuestionOrder (appendOrders n)]

/-!
## Auxiliary predicates and concrete inputs used by the statements below
-/

/-- The model reply names a section of the fixed flow order, or the call
failed: the well-behaved-oracle hypothesis of the flow invariant. -/
def llmSecOk : LlmOutcome → Prop
  | .fail => True
  | .ok _ sec? _ _ => ∀ s, sec? = some s → s.isEmpty = false → trimStr s ∈ sectionOrder

/-- The expected keys of a structured-CV result, in order (services.py
lines 1350–1360 / 1371–1382 / 1449–1459). -/
def expectedCvKeys : List Str :=
  [profileS, languagesS, skillsS, skillsGroupedS, workExperienceS, educationS,
   projectsS, coursesS, certificationsS]

/-- Type discipline of one structured-CV field: `profile` is a string,
`skills_grouped` a dict, `skills` a list of strings, every other field a
list. -/
def cvFieldShapeOk (kv : Str × JVal) : Bool :=
  if kv.1 == profileS then (match kv.2 with | .str _ => true | _ => false)
  else if kv.1 == skillsGroupedS then (match kv.2 with | .dict _ => true | _ => false)
  else if kv.1 == skillsS then
    (match kv.2 with
     | .list l => l.all (fun v => match v with | .str _ => true | _ => false)
     | _ => false)
  else (match kv.2 with | .list _ => true | _ => false)

/-- A structured-CV result has exactly the expected keys, in order, each
with the expected value type. -/
def structuredCvShapeOk (out : List (Str × JVal)) : Bool :=
  (out.map Prod.fst == expectedCvKeys) && out.all cvFieldShapeOk

/-- A concrete regex stand-in for `_extract_item_from_question` that
extracts nothing (the theorems about the aggregator hold for every such
function; this one instantiates witnesses). -/
def efNull : Str → Str → Str := fun _ _ => []

/-- A conversation history: the project-experience initial question was
answered with a bare completion signal. -/
def histC1 : List HistItem :=
  [⟨assistantRole, basedOnQuestion projectExperienceS⟩,
   ⟨recruiterRole, ("no").data⟩]

/-- A conversation history: the core-skills initial question was answered
substantively, with "no" only as a leading aside. -/
def histC2 : List HistItem :=
  [⟨assistantRole, basedOnQuestion coreSkillsS⟩,
   ⟨recruiterRole, ("no, but they also know Rust").data⟩]

/-- A non-empty recruiter answer for the recommendations section. -/
def answerC3 : Str := ("They are an excellent mentor and I strongly recommend them").data

/-- A parsed classification reply whose extracted items differ from the
verbatim answer. -/
def parsedC3 : ParsedClassify :=
  ⟨("confirmed").data, ("high").data, some [.str ("Mentoring").data], ("model notes").data⟩

/-- An extracted dict whose `skills` list holds case variants of the same
skill (the spec's own dedup example, plus `Go`). -/
def dataC4 : List (Str × JVal) :=
  [(profileS, .str ("p").data),
   (skillsS, .list [.str ("Python").data, .str ("python").data,
                    .str ("PYTHON").data, .str ("Go").data])]

/-- A session holding one confirmed turn (content generation succeeds). -/
def stateC6 : PaperState :=
  ⟨[⟨coreSkillsS, ("What about core skills?").data, [],
     some ⟨("They know Java").data, ("confirmed").data, [("Java").data]⟩⟩],
   none, inProgressS, false⟩

/-- A session whose only turn is `not_confirmed` (content generation finds
nothing). -/
def stateC7 : PaperState :=
  ⟨[⟨coreSkillsS, ("Has the candidate worked with Java?").data, [],
     some ⟨("no").data, notConfirmedS, []⟩⟩],
   none, inProgressS, false⟩

/-- A 700-character recommendation with no sentence punctuation. -/
def aRun700 : Str := List.replicate 700 'a'

/-- A five-character answer consisting entirely of non-ASCII characters. -/
def answerC10 : Str := List.replicate 5 'é'

/-!
## Supporting lemmas
-/

theorem sectionOrder_trim_self : ∀ y ∈ sectionOrder, trimStr y = y := by decide

theorem advanceSection_mem {sec nxt : Str} (h : advanceSection sec = some nxt) :
    nxt ∈ sectionOrder := by
  unfold advanceSection at h
  split at h
  · rename_i idx heq
    split at h
    · rename_i hlt
      have hbound : idx + 1 < sectionOrder.length := by
        have h9 : sectionOrder.length = 9 := rfl
        omega
      rw [List.getElem?_eq_getElem hbound] at h
      have := Option.some.inj h
      rw [← this]
      exact List.getElem_mem hbound
    · exact absurd h (by simp)
  · exact absurd h (by simp)

theorem tryAdvance_mem {sec : Str} {c : Bool} {r : RecruiterResult}
    (h : tryAdvance sec c = some r) : r.sec ∈ sectionOrder := by
  unfold tryAdvance at h
  split at h
  · cases hadv : advanceSection sec with
    | none => rw [hadv] at h; exact absurd h (by simp)
    | some nxt =>
        rw [hadv] at h
        simp only [Option.map_some'] at h
        have := Option.some.inj h
        rw [← this]
        exact advanceSection_mem hadv
  · exact absurd h (by simp)

theorem orElse_eq_some {α : Type} {a b : Option α} {r : α} (h : (a <|> b) = some r) :
    a = some r ∨ b = some r := by
  cases a with
  | none => right; simpa using h
  | some x => left; simpa using h

theorem earlyCompletionPart_mem {lra laq sec : Str} {r : RecruiterResult}
    (h : earlyCompletionPart lra laq sec = some r) : r.sec ∈ sectionOrder := by
  unfold earlyCompletionPart at h
  split at h
  · exact absurd h (by simp)
  · rcases orElse_eq_some h with h1 | h23
    · exact tryAdvance_mem h1
    · rcases orElse_eq_some h23 with h2 | h3
      · exact tryAdvance_mem h2
      · exact tryAdvance_mem h3

theorem addInfoDonePart_mem {lra sec : Str} {r : RecruiterResult}
    (h : addInfoDonePart lra sec = some r) : r.sec ∈ sectionOrder := by
  unfold addInfoDonePart at h
  split at h
  · have := Option.some.inj h
    rw [← this]
    decide
  · exact absurd h (by simp)

theorem addInfoQuestionDonePart_mem {lra laq : Str} {r : RecruiterResult}
    (h : addInfoQuestionDonePart lra laq = some r) : r.sec ∈ sectionOrder := by
  unfold addInfoQuestionDonePart at h
  split at h
  · split at h
    · have := Option.some.inj h
      rw [← this]
      decide
    · exact absurd h (by simp)
  · exact absurd h (by simp)

theorem forcedFollowupPart_mem {lra laq sec : Str} {r : RecruiterResult}
    (hsec : sec ∈ sectionOrder)
    (h : forcedFollowupPart lra laq sec = some r) : r.sec ∈ sectionOrder := by
  unfold forcedFollowupPart at h
  split at h
  · exact absurd h (by simp)
  · split at h
    · split at h
      · split at h
        · rename_i nxt heq
          by_cases hq : ((nxt == addInfoS) = true)
          · rw [if_pos hq] at h
            have := Option.some.inj h
            rw [← this]
            exact advanceSection_mem heq
          · rw [if_neg hq] at h
            have := Option.some.inj h
            rw [← this]
            exact advanceSection_mem heq
        · exact absurd h (by simp)
      · have := Option.some.inj h
        rw [← this]
        exact hsec
    · exact absurd h (by simp)

theorem finishQuestion_sec (q ns : Str) (cs d : Bool) (sec1 : Str) :
    (finishQuestion q ns cs d sec1).sec = if ns.isEmpty then sec1 else ns := by
  unfold finishQuestion
  split
  · split <;> rfl
  · rfl

theorem csAdvance_snd_mem {sec1 q0 ns0 : Str} (hns0 : ns0 ∈ sectionOrder) :
    (csAdvance sec1 q0 ns0).2 ∈ sectionOrder := by
  unfold csAdvance
  split
  · rename_i idx heq
    split
    · rename_i hlt
      have hbound : idx + 1 < sectionOrder.length := by
        have h9 : sectionOrder.length = 9 := rfl
        omega
      simp only [List.getElem?_eq_getElem hbound, Option.getD_some]
      exact List.getElem_mem hbound
    · show addInfoS ∈ sectionOrder
      decide
  · exact hns0

theorem proposedSection_mem {sec : Str} (sec? : Option Str) (hsec : sec ∈ sectionOrder)
    (hok : ∀ s, sec? = some s → s.isEmpty = false → trimStr s ∈ sectionOrder) :
    proposedSection sec sec? ∈ sectionOrder := by
  unfold proposedSection
  cases sec? with
  | none => rw [sectionOrder_trim_self sec hsec]; exact hsec
  | some s =>
      by_cases hse : (s.isEmpty = true)
      · show trimStr (if s.isEmpty then sec else s) ∈ sectionOrder
        rw [if_pos hse, sectionOrder_trim_self sec hsec]
        exact hsec
      · show trimStr (if s.isEmpty then sec else s) ∈ sectionOrder
        rw [if_neg hse]
        exact hok s rfl (by simpa using hse)

theorem llmPostPart_sec_mem {sec : Str} {out : LlmOutcome} (hsec : sec ∈ sectionOrder)
    (hok : llmSecOk out) : (llmPostPart sec out).sec ∈ sectionOrder := by
  cases out with
  | fail => exact hsec
  | ok q0 sec? cs0 done0 =>
      have hns0 : proposedSection sec sec? ∈ sectionOrder :=
        proposedSection_mem sec? hsec (fun s hs he => hok s hs he)
      have hsec1 : (if sectionOrder.contains sec then sec else coreSkillsS) ∈ sectionOrder := by
        split
        · exact hsec
        · decide
      simp only [llmPostPart]
      generalize hS1 : (if sectionOrder.contains sec then sec else coreSkillsS) = sec1
      rw [hS1] at hsec1
      have hq2 : (if cs0 then csAdvance sec1 (trimStr q0) (proposedSection sec sec?)
          else (trimStr q0, proposedSection sec sec?)).2 ∈ sectionOrder := by
        split
        · exact csAdvance_snd_mem hns0
        · exact hns0
      generalize hQ : (if cs0 then csAdvance sec1 (trimStr q0) (proposedSection sec sec?)
          else (trimStr q0, proposedSection sec sec?)) = qns
      rw [hQ] at hq2
      have hn2 : (if sec1 == projectExperienceS && cs0 && qns.2 != addInfoS then addInfoS
          else qns.2) ∈ sectionOrder := by
        split
        · decide
        · exact hq2
      generalize hN : (if sec1 == projectExperienceS && cs0 && qns.2 != addInfoS then addInfoS
          else qns.2) = ns2
      rw [hN] at hn2
      split
      · rw [finishQuestion_sec]
        split
        · exact hsec1
        · exact hn2
      · split
        · show addInfoS ∈ sectionOrder
          decide
        · rw [finishQuestion_sec]
          split
          · exact hsec1
          · exact hn2

theorem generateRecruiter_sec_mem (hasKey : Bool) (history : List HistItem) (sec : Str)
    (llm : LlmOutcome) (hsec : sec ∈ sectionOrder) (hok : llmSecOk llm) :
    (generateRecruiterNextQuestion hasKey history sec llm).sec ∈ sectionOrder := by
  unfold generateRecruiterNextQuestion
  split
  · exact hsec
  · split
    · rename_i r heq
      exact earlyCompletionPart_mem heq
    · split
      · rename_i r heq
        exact addInfoDonePart_mem heq
      · split
        · rename_i r heq
          exact addInfoQuestionDonePart_mem heq
        · split
          · rename_i r heq
            exact forcedFollowupPart_mem hsec heq
          · exact llmPostPart_sec_mem hsec hok

theorem dedupTokens_spec : ∀ (ts seen : List Str),
    ((dedupTokens ts seen).map lowerStr).Nodup ∧
    ∀ x ∈ dedupTokens ts seen, lowerStr x ∉ seen := by
  intro ts
  induction ts with
  | nil =>
      intro seen
      refine ⟨List.nodup_nil, ?_⟩
      intro x hx
      exact absurd hx (List.not_mem_nil x)
  | cons tok rest ih =>
      intro seen
      unfold dedupTokens
      split
      · exact ih seen
      · split
        · exact ih seen
        · rename_i hlen hcont
          constructor
          · refine List.nodup_cons.mpr ⟨?_, (ih _).1⟩
            intro hmem
            rcases List.mem_map.mp hmem with ⟨x, hx, hlx⟩
            have := (ih _).2 x hx
            exact this (by rw [hlx]; exact List.mem_cons_self _ _)
          · intro x hx
            rcases List.mem_cons.mp hx with rfl | hx'
            · intro hmem
              exact hcont (List.elem_eq_true_of_mem hmem)
            · have := (ih _).2 x hx'
              intro hmem
              exact this (List.mem_cons_of_mem _ hmem)

theorem filterMap_str_map (xs : List Str) :
    (xs.map JVal.str).filterMap
      (fun v => match v with | .str s => some s | _ => none) = xs := by
  induction xs with
  | nil => rfl
  | cons h t ih => simpa using ih

theorem skillStringsOf_mk (profile : Str) (xs : List Str)
    (langs work edu proj crs cert : List JVal) :
    skillStringsOf (mkStructuredCv profile xs langs work edu proj crs cert) = xs := by
  show (xs.map JVal.str).filterMap _ = xs
  exact filterMap_str_map xs

theorem all_str_map (xs : List Str) :
    ((xs.map JVal.str).all (fun v => match v with | .str _ => true | _ => false)) = true := by
  induction xs with
  | nil => rfl
  | cons h t ih => simp [ih]

theorem shapeOk_mk (profile : Str) (xs : List Str)
    (langs work edu proj crs cert : List JVal) :
    structuredCvShapeOk (mkStructuredCv profile xs langs work edu proj crs cert) = true := by
  unfold structuredCvShapeOk
  rw [show ((mkStructuredCv profile xs langs work edu proj crs cert).map Prod.fst
      == expectedCvKeys) = true from rfl]
  rw [Bool.true_and]
  show ((mkStructuredCv profile xs langs work edu proj crs cert).all cvFieldShapeOk) = true
  simp only [mkStructuredCv, List.all_cons, List.all_nil, Bool.and_eq_true, and_true]
  refine ⟨rfl, rfl, ?_, rfl, rfl, rfl, rfl, rfl, rfl⟩
  show ((xs.map JVal.str).all _) = true
  exact all_str_map xs

theorem shapeOk_simple (cv : Str) :
    structuredCvShapeOk (simpleStructuredCvFromText cv) = true := by
  simp only [simpleStructuredCvFromText]
  exact shapeOk_mk _ _ [] [] [] [] [] []

theorem processTurn_skip (ef : Str → Str → Str) (acc : List (Str × List Str) × List Str)
    (t : ConvTurn) (h : ∀ r, t.response = some r → r.status = notConfirmedS) :
    processTurn ef acc t = acc := by
  unfold processTurn
  cases hres : t.response with
  | none => rfl
  | some r =>
      have hst := h r hres
      simp [hst]

theorem foldl_processTurn_skip (ef : Str → Str → Str) (ts : List ConvTurn)
    (acc : List (Str × List Str) × List Str)
    (h : ∀ t ∈ ts, ∀ r, t.response = some r → r.status = notConfirmedS) :
    ts.foldl (processTurn ef) acc = acc := by
  induction ts generalizing acc with
  | nil => rfl
  | cons t rest ih =>
      rw [List.foldl_cons, processTurn_skip ef acc t (h t (List.mem_cons_self _ _)),
        ih acc (fun t' ht' => h t' (List.mem_cons_of_mem _ ht'))]

theorem buildPaperContent_skip (ef : Str → Str → Str) (ts : List ConvTurn)
    (h : ∀ t ∈ ts, ∀ r, t.response = some r → r.status = notConfirmedS) :
    buildPaperContent ef ts = [] := by
  unfold buildPaperContent aggregateTurns
  rw [foldl_processTurn_skip ef ts _ h]
  decide

theorem maxOrder_concat (l : List Nat) (a : Nat) :
    maxOrder (l ++ [a]) = some ((maxOrder l).elim a (fun m => max m a)) := by
  unfold maxOrder
  rw [List.foldl_append]
  cases List.foldl (fun acc x => match acc with | none => some x | some m => some (max m x))
    none l <;> rfl

theorem appendOrders_range : ∀ n, appendOrders n = List.range' 1 n ∧
    maxOrder (appendOrders n) = (if n = 0 then none else some n) := by
  intro n
  induction n with
  | zero => exact ⟨rfl, rfl⟩
  | succ k ih =>
      have hnext : nextQuestionOrder (appendOrders k) = k + 1 := by
        unfold nextQuestionOrder
        rw [ih.2]
        cases k <;> simp
      constructor
      · show appendOrders k ++ [nextQuestionOrder (appendOrders k)] = _
        rw [hnext, ih.1]
        have hcat : List.range' 1 (k + 1) = List.range' 1 k ++ [1 + 1 * k] :=
          List.range'_concat 1 k
        simpa [Nat.add_comm] using hcat.symm
      · show maxOrder (appendOrders k ++ [nextQuestionOrder (appendOrders k)]) = _
        rw [hnext, maxOrder_concat, ih.2]
        cases k with
        | zero => simp
        | succ j => simp [Nat.max_eq_right (Nat.le_succ (j + 1))]

/-!
## The claims
-/

/-- C1, counterexample.  Driving `generate_recruiter_next_question` from
`project_experience` with a completion-signal answer advances the flow
directly to `additional_info` and asks the additional-info question;
`recommendations` is not a flow section at all, so it is not reached
(asked about) before `additional_info`, contradicting the claim that the
flow never advances from `project_experience` past `recommendations`. -/
theorem c1_counterexample :
    (generateRecruiterNextQuestion true histC1 projectExperienceS .fail).sec = addInfoS ∧
    (generateRecruiterNextQuestion true histC1 projectExperienceS .fail).question =
      basedOnQuestion addInfoS ∧
    recommendationsS ∉ sectionOrder := by
  refine ⟨by decide, by decide, by decide⟩

/-- C1, amended.  The conversation flow has no `recommendations` section:
the fixed order advances from `project_experience` directly to
`additional_info` (`advanceSection projectExperienceS = some addInfoS`),
`recommendationsS ∉ sectionOrder`, and for every history, whenever the
current section lies in the fixed order and the model reply names only
sections of that order (or the call fails), the section returned by
`generate_recruiter_next_question` also lies in the fixed order — in
particular it is never `recommendations`. -/
theorem c1_section_flow (hasKey : Bool) (history : List HistItem) (sec : Str)
    (llm : LlmOutcome) (hsec : sec ∈ sectionOrder) (hok : llmSecOk llm) :
    (generateRecruiterNextQuestion hasKey history sec llm).sec ∈ sectionOrder ∧
    (generateRecruiterNextQuestion hasKey history sec llm).sec ≠ recommendationsS ∧
    recommendationsS ∉ sectionOrder ∧
    advanceSection projectExperienceS = some addInfoS := by
  have hmem := generateRecruiter_sec_mem hasKey history sec llm hsec hok
  refine ⟨hmem, ?_, by decide, by decide⟩
  intro hcontra
  rw [hcontra] at hmem
  exact (by decide : recommendationsS ∉ sectionOrder) hmem

/-- C1, witness for `c1_section_flow` at a concrete input. -/
theorem c1_section_flow_witness :
    projectExperienceS ∈ sectionOrder ∧
    ((generateRecruiterNextQuestion true histC1 projectExperienceS .fail).sec ∈ sectionOrder ∧
     (generateRecruiterNextQuestion true histC1 projectExperienceS .fail).sec ≠ recommendationsS ∧
     recommendationsS ∉ sectionOrder ∧
     advanceSection projectExperienceS = some addInfoS) :=
  ⟨by decide, c1_section_flow true histC1 projectExperienceS .fail (by decide) trivial⟩

/-- C2.  The claim states the completion test used to advance sections
fires only on answers that (trimmed, lower-cased) equal or start with a
fixed signal phrase, and in particular must not fire on
"no, but they also know Rust".  The exact/prefix test of the code
(`isCompletionSignalExact`, services.py lines 606–612) indeed rejects that
answer, but the pre-LLM branch at line 757 uses a substring test, so the
section is nevertheless advanced from `core_skills` to `soft_skills`
(for every LLM oracle — the model is never consulted), contradicting the
claim and the code's own "ONLY a completion signal" comments. -/
theorem c2_substring_completion_fires :
    isCompletionSignalExact (("no, but they also know Rust").data) = false ∧
    isCompletionSignalSub (("no, but they also know Rust").data) = true ∧
    (∀ llm, (generateRecruiterNextQuestion true histC2 coreSkillsS llm).sec = softSkillsS) ∧
    (∀ llm, (generateRecruiterNextQuestion true histC2 coreSkillsS llm).question =
      basedOnQuestion softSkillsS) := by
  refine ⟨by decide, by decide, fun llm => rfl, fun llm => rfl⟩

/-- C3, counterexample.  A non-empty recommendations-section answer is not
stored verbatim: with the heuristic path the extracted list is empty, and
with the LLM path it is the model's extracted items — in neither case the
single-element verbatim answer the claim requires. -/
theorem c3_counterexample :
    (classifyRecruiterAnswer (("What is your recommendation for this candidate?").data)
        answerC3 recommendationsS false none).extractedSkills = [] ∧
    (classifyRecruiterAnswer (("What is your recommendation for this candidate?").data)
        answerC3 recommendationsS true (some parsedC3)).extractedSkills =
      [("Mentoring").data] ∧
    answerC3 ≠ [] ∧
    ([] : List Str) ≠ [answerC3] ∧
    [("Mentoring").data] ≠ [answerC3] := by
  refine ⟨by decide, by decide, by decide, by decide, by decide⟩

/-- C3, amended.  `classify_recruiter_answer` has no recommendations
bypass: for the `recommendations` section the heuristic path (no API key)
always returns an empty extracted list, and the LLM path returns exactly
the cleaned model-extracted items `cleanSkills(parsed.extracted_skills)` —
a value that does not depend on the answer text, so the function itself
never stores the verbatim answer. -/
theorem c3_no_verbatim_bypass :
    (∀ q a llm, (classifyRecruiterAnswer q a recommendationsS false llm).extractedSkills = []) ∧
    (∀ q a p, trimStr a ≠ [] → languageReject (trimStr a) = false →
      (classifyRecruiterAnswer q a recommendationsS true (some p)).extractedSkills =
        cleanSkills (p.extracted.getD [])) := by
  constructor
  · intro q a llm
    simp only [classifyRecruiterAnswer]
    split
    · rfl
    · split
      · rfl
      · rfl
  · intro q a p h1 h2
    simp only [classifyRecruiterAnswer]
    rw [if_neg (by simp [List.isEmpty_iff, h1]), if_neg (by simp [h2])]
    rfl

/-- C3, witness for `c3_no_verbatim_bypass` at a concrete input. -/
theorem c3_no_verbatim_bypass_witness :
    trimStr answerC3 ≠ [] ∧ languageReject (trimStr answerC3) = false ∧
    (classifyRecruiterAnswer (("Q").data) answerC3 recommendationsS true
        (some parsedC3)).extractedSkills = cleanSkills (parsedC3.extracted.getD []) :=
  ⟨by decide, by decide,
   c3_no_verbatim_bypass.2 (("Q").data) answerC3 parsedC3 (by decide) (by decide)⟩

/-- C4, counterexample.  On the main (LLM) path `generate_structured_cv`
does not deduplicate skills: the input list
`["Python", "python", "PYTHON", "Go"]` is returned with all four entries,
not as `["Python", "Go"]`. -/
theorem c4_counterexample :
    skillStringsOf (generateStructuredCv (("x").data) (some dataC4)) =
      [("Python").data, ("python").data, ("PYTHON").data, ("Go").data] ∧
    skillStringsOf (generateStructuredCv (("x").data) (some dataC4)) ≠
      [("Python").data, ("Go").data] := by
  refine ⟨by decide, by decide⟩

/-- C4, amended.  Case-insensitive, order-preserving skill deduplication
happens only in the heuristic fallback parser
`_simple_structured_cv_from_text`: its skills list never contains two
entries with the same lower-casing, and on the spec's example tokens the
dedup keeps `["Python", "Go"]` in first-occurrence order.  The main
normalizer path (see `c4_counterexample`) only trims and drops empty
strings. -/
theorem c4_dedup_only_in_fallback :
    (∀ cv, ((skillStringsOf (simpleStructuredCvFromText cv)).map lowerStr).Nodup) ∧
    dedupTokens [("Python").data, ("python").data, ("PYTHON").data, ("Go").data] [] =
      [("Python").data, ("Go").data] := by
  constructor
  · intro cv
    simp only [simpleStructuredCvFromText]
    rw [skillStringsOf_mk]
    exact (dedupTokens_spec _ []).1
  · decide

/-- C5, counterexample.  On a parse failure (`_extract_first_json_object`
returned the empty dict) with non-empty CV text, the result is the
heuristic fallback structure — profile `"John Doe"` — not the fully-empty
structure the claim requires. -/
theorem c5_counterexample :
    profileStringOf (generateStructuredCv (("John Doe").data) (some [])) =
      ("John Doe").data ∧
    profileStringOf emptyStructuredCv = [] ∧
    generateStructuredCv (("John Doe").data) (some []) ≠ emptyStructuredCv := by
  refine ⟨by decide, by decide, ?_⟩
  intro h
  have h1 : profileStringOf (generateStructuredCv (("John Doe").data) (some [])) = [] := by
    rw [h]
    decide
  have h2 : profileStringOf (generateStructuredCv (("John Doe").data) (some [])) =
      ("John Doe").data := by decide
  rw [h2] at h1
  exact absurd h1 (by decide)

/-- C5, amended.  `generate_structured_cv` never raises and always returns
every expected field with the expected type (lists possibly empty, strings
possibly empty); empty or whitespace-only CV text yields the fully-empty
structure; but a parse failure (empty extracted dict) with non-empty CV
text yields the heuristic fallback structure, not the fully-empty one. -/
theorem c5_shape_total :
    (∀ cv llm, structuredCvShapeOk (generateStructuredCv cv llm) = true) ∧
    (∀ cv llm, trimStr cv = [] → generateStructuredCv cv llm = emptyStructuredCv) ∧
    (∀ cv, trimStr cv ≠ [] →
      generateStructuredCv cv (some []) = simpleStructuredCvFromText cv) := by
  refine ⟨?_, ?_, ?_⟩
  · intro cv llm
    unfold generateStructuredCv
    split
    · exact shapeOk_mk [] [] [] [] [] [] [] []
    · split
      · exact shapeOk_simple cv
      · split
        · exact shapeOk_simple cv
        · exact shapeOk_mk _ _ _ _ _ _ _ _
  · intro cv llm h
    unfold generateStructuredCv
    rw [if_pos]
    simp [List.isEmpty_iff, h]
  · intro cv h
    unfold generateStructuredCv
    rw [if_neg]
    · rfl
    · simp only [Bool.or_eq_true, List.isEmpty_iff]
      rintro (h1 | h2)
      · exact h (by simp [h1, trimStr])
      · exact h h2

/-- C5, witness for `c5_shape_total` at concrete inputs. -/
theorem c5_shape_total_witness :
    trimStr (("John Doe").data) ≠ [] ∧
    generateStructuredCv (("John Doe").data) (some []) =
      simpleStructuredCvFromText (("John Doe").data) ∧
    trimStr ([] : Str) = [] ∧
    generateStructuredCv ([] : Str) none = emptyStructuredCv :=
  ⟨by decide, c5_shape_total.2.2 (("John Doe").data) (by decide), by decide,
   c5_shape_total.2.1 ([] : Str) none (by decide)⟩

/-- C6.  Paper generation is idempotent: whenever a run of the generate
endpoint succeeds (content is non-empty), running it again on the
resulting state — same turn log, session now completed with the stored
paper — produces exactly the same state and byte-identical content.  This
holds for every item-extraction helper `ef`. -/
theorem c6_generate_paper_idempotent (ef : Str → Str → Str) (s : PaperState)
    (h : (generatePaperPost ef s).2 ≠ none) :
    generatePaperPost ef (generatePaperPost ef s).1 = generatePaperPost ef s := by
  by_cases hc : (buildPaperContent ef s.turns).isEmpty
  · exfalso
    apply h
    simp only [generatePaperPost, if_pos hc]
  · simp only [generatePaperPost, if_neg hc]

/-- C6, witness for `c6_generate_paper_idempotent` on a one-turn session. -/
theorem c6_generate_paper_idempotent_witness :
    (generatePaperPost efNull stateC6).2 ≠ none ∧
    generatePaperPost efNull (generatePaperPost efNull stateC6).1 =
      generatePaperPost efNull stateC6 :=
  ⟨by decide, c6_generate_paper_idempotent efNull stateC6 (by decide)⟩

/-- C7.  If the aggregated document is empty, the generate endpoint
rejects the request and changes nothing: no paper is created or
overwritten, the session status and `completed_at` stay as they were.  In
particular this is the case when every stored response is
`not_confirmed`.  This holds for every item-extraction helper `ef`. -/
theorem c7_no_content_atomic (ef : Str → Str → Str) (s : PaperState) :
    (buildPaperContent ef s.turns = [] → generatePaperPost ef s = (s, none)) ∧
    ((∀ t ∈ s.turns, ∀ r, t.response = some r → r.status = notConfirmedS) →
      generatePaperPost ef s = (s, none)) := by
  constructor
  · intro h
    simp only [generatePaperPost, h]
    rfl
  · intro h
    have hempty := buildPaperContent_skip ef s.turns h
    simp only [generatePaperPost, hempty]
    rfl

/-- C7, witness for `c7_no_content_atomic` on an all-`not_confirmed`
session that is in progress with no stored paper. -/
theorem c7_no_content_atomic_witness :
    buildPaperContent efNull stateC7.turns = [] ∧
    generatePaperPost efNull stateC7 = (stateC7, none) ∧
    stateC7.sessionStatus = inProgressS ∧
    stateC7.paper = none ∧
    stateC7.completedAtSet = false :=
  ⟨by decide, (c7_no_content_atomic efNull stateC7).1 (by decide), by decide,
   by decide, by decide⟩

/-- C8.  After any number `n` of appends starting from an empty session,
the stored `question_order` values are exactly `1..n`: each append assigns
the maximum existing order plus one, starting at `1`, so the column equals
`List.range' 1 n` — strictly increasing with no gaps or repeats. -/
theorem c8_orders_exactly_range (n : Nat) : appendOrders n = List.range' 1 n :=
  (appendOrders_range n).1

set_option maxRecDepth 100000 in
/-- C9.  The recommendation truncation never performs the documented
hard cut: on a 700-character recommendation with no sentence punctuation,
both the paper aggregator's 550-limit truncation (views.py lines 654–668)
and the PDF projection's 500-limit truncation (pdf_renderer.py
lines 351–368) return the EMPTY string — the single oversize sentence is
dropped by the greedy loop, and the `[:547] + "..."` / `[:497] + "..."`
hard-cut branches are unreachable — contradicting the claimed
500-visible-characters-plus-ellipsis behaviour. -/
theorem c9_oversize_sentence_yields_empty :
    aRun700.length = 700 ∧
    aRun700.all (fun c => !sentencePunct c) = true ∧
    550 < aRun700.length ∧
    truncateRecommendationPaper aRun700 = [] ∧
    truncateRecommendationPdf aRun700 = [] := by
  refine ⟨by decide, by decide, by decide, by decide, by decide⟩

/-- C10.  The language rejection counts regex matches of `[^\x00-\x7F]+`,
i.e. maximal RUNS of consecutive non-ASCII characters, not characters: on
`"ééééé"` every character (100% > 30%) is non-ASCII, yet there is a single
run, `1 > 5 * 0.3` fails, and the classifier proceeds to normal
classification (here the heuristic path: `partially_confirmed`/`medium`)
instead of returning `not_confirmed`/`low`/`[]` as the claim requires. -/
theorem c10_nonascii_runs_not_chars :
    3 * answerC10.length < 10 * (answerC10.filter (fun c => 127 < c.toNat)).length ∧
    nonAsciiRuns answerC10 = 1 ∧
    languageReject answerC10 = false ∧
    classifyRecruiterAnswer (("Q").data) answerC10 coreSkillsS false none =
      ⟨partiallyConfirmedS, mediumS, [],
       ("Rule-based classification (no OpenAI API).").data⟩ := by
  refine ⟨by decide, by decide, by decide, by decide⟩

end CvAgent
